import Mathlib

/-!
Verification of the mailbox webmail server core: the AI-model fallback
dispatcher (backend routes ai.ts), the Gmail MIME codec and mail routes
(backend routes emails.ts), the token-refresh-and-retry adapter for the
Outlook client, and the front-end email list projection (lib api.ts).
Each definition is a shallow embedding of the corresponding source
function; network calls are abstracted as oracle parameters giving the
outcome of each provider call, and everything else is translated
line by line.
-/

namespace Mailbox

/-! ## AI dispatcher (backend routes ai.ts) -/

/-- JavaScript truthiness of a nullable string: null and the empty string
are falsy, every other string is truthy. -/
def jsTruthyStr : Option String → Bool
  | none => false
  | some s => s != ""

/-- The groqModelMap record (ai.ts lines 247-260): catalog model id to
Groq model name.  A lookup of a key not in the record yields none, as
bracket indexing yields undefined in the source. -/
def groqModelMap : String → Option String := fun id =>
  if id = "mixtral-8x7b-32768" then some "mixtral-8x7b-32768"
  else if id = "llama-3-70b" then some "llama3-70b-8192"
  else if id = "llama-3.3-70b-versatile" then some "llama-3.3-70b-versatile"
  else if id = "llama-3.1-8b-instant" then some "llama-3.1-8b-instant"
  else if id = "gemma-7b" then some "gemma2-9b-it"
  else if id = "gemma2-9b-it" then some "gemma2-9b-it"
  else if id = "llama-guard-3-8b" then some "llama-guard-3-8b"
  else if id = "llama3-70b-8192" then some "llama3-70b-8192"
  else if id = "llama3-8b-8192" then some "llama3-8b-8192"
  else if id = "whisper-large-v3" then some "whisper-large-v3"
  else if id = "whisper-large-v3-turbo" then some "whisper-large-v3-turbo"
  else if id = "distil-whisper-large-v3-en" then some "distil-whisper-large-v3-en"
  else none

/-- The primary model of modelConfig (ai.ts lines 242-245). -/
def primaryModel : String := "mixtral-8x7b-32768"

/-- The fallback chain of modelConfig (ai.ts lines 242-245). -/
def fallbackChain : List String :=
  ["llama3-70b-8192", "llama-3.1-8b-instant", "gemma2-9b-it"]

/-- The response post-processing of tryModel (ai.ts line 359):
response.replace of every asterisk by the empty string. -/
def stripStars (s : String) : String :=
  String.mk (s.data.filter (fun c => c != '*'))

/-- tryModel (ai.ts lines 336-367).  The catalog model id is resolved
through groqModelMap; an unmapped id yields null without any call.  The
Groq chat-completion call is abstracted as the oracle groqCall from Groq
model name to the returned message content, where none stands for a
thrown provider error or a missing API key and an empty content string is
normalized to null by the source expression content-or-null.  A truthy
response is returned with every asterisk stripped.  The prompt argument
of the source does not influence which branch is taken, so it is folded
into the oracle. -/
def tryModel (groqCall : String → Option String) (modelId : String) :
    Option String :=
  match groqModelMap modelId with
  | none => none
  | some gm =>
    match groqCall gm with
    | none => none
    | some r => if r = "" then none else some (stripStars r)

/-- Result record of handleEmailQuery (ai.ts lines 369-402). -/
structure AIQueryResult where
  response : String
  modelUsed : String
  fallbackUsed : Bool
deriving Repr, DecidableEq

/-- The for-loop of handleEmailQuery over the fallback chain (ai.ts
lines 383-389): try each fallback model in order and break at the first
truthy response, recording which model produced it. -/
def runFallbacks (groqCall : String → Option String) :
    List String → Option (String × String)
  | [] => none
  | m :: ms =>
    let r := tryModel groqCall m
    if jsTruthyStr r then some (m, r.getD "") else runFallbacks groqCall ms

/-- The user-safe apology text returned on chain exhaustion (ai.ts
lines 392-399). -/
def apologyText : String :=
  "I apologize, but I\x27m currently unable to process your request. Please try again later."

/-- handleEmailQuery (ai.ts lines 369-402): try the requested model; on a
falsy result set fallbackUsed and walk the fallback chain; if the chain
is exhausted return the apology text with modelUsed set to none. -/
def handleEmailQuery (groqCall : String → Option String) (modelId : String) :
    AIQueryResult :=
  let primary := tryModel groqCall modelId
  if jsTruthyStr primary then
    { response := primary.getD "", modelUsed := modelId, fallbackUsed := false }
  else
    match runFallbacks groqCall fallbackChain with
    | some (m, r) => { response := r, modelUsed := m, fallbackUsed := true }
    | none =>
      { response := apologyText, modelUsed := "none", fallbackUsed := true }

/-- JavaScript String.prototype.trim: drop whitespace from both ends. -/
def jsTrim (s : String) : String :=
  String.mk
    (((s.data.dropWhile (fun c => c.isWhitespace)).reverse.dropWhile
        (fun c => c.isWhitespace)).reverse)

/-- validateRequest (ai.ts lines 404-412): the query text must be present
and non-blank and the context must carry a non-empty email list.  Only
the length of the email list matters here, so it is kept as a list of
units. -/
def validateRequest (content : Option String)
    (contextEmails : Option (List Unit)) : Option String :=
  match content with
  | none => some "Query is required"
  | some s =>
    if jsTrim s = "" then some "Query is required"
    else
      match contextEmails with
      | none => some "Email context is required"
      | some l => if l.isEmpty then some "Email context is required" else none

/-- Request body of POST /ai/process as the route reads it (ai.ts
lines 416-421). -/
structure ProcessBody where
  content : Option String
  modelId : Option String
  contextEmails : Option (List Unit)

/-- Response of the /ai/process route as seen by the HTTP caller. -/
structure HttpAIResponse where
  status : Nat
  success : Bool
  response : Option String
  error : Option String
  model : Option String
  fallbackUsed : Option Bool
deriving Repr, DecidableEq

/-- The POST /ai/process route handler (ai.ts lines 414-465): a failed
validation yields a 400 error body; otherwise handleEmailQuery runs with
the requested model id (defaulted to the primary of modelConfig) and its
result is returned with HTTP status 200. -/
def processRoute (groqCall : String → Option String) (body : ProcessBody) :
    HttpAIResponse :=
  match validateRequest body.content body.contextEmails with
  | some err =>
    { status := 400, success := false, response := none, error := some err,
      model := none, fallbackUsed := none }
  | none =>
    let r := handleEmailQuery groqCall (body.modelId.getD primaryModel)
    { status := 200, success := true, response := some r.response,
      error := none, model := some r.modelUsed,
      fallbackUsed := some r.fallbackUsed }

/-- The fallback loop returns exactly the first chain element whose
tryModel result is truthy, paired with that result. -/
theorem runFallbacks_eq_find (groqCall : String → Option String)
    (l : List String) :
    runFallbacks groqCall l
      = (l.find? (fun m => jsTruthyStr (tryModel groqCall m))).map
          (fun m => (m, (tryModel groqCall m).getD "")) := by
  induction l with
  | nil => rfl
  | cons m ms ih =>
    by_cases h : jsTruthyStr (tryModel groqCall m) = true
    · simp [runFallbacks, List.find?_cons, h]
    · simp only [Bool.not_eq_true] at h
      simp [runFallbacks, List.find?_cons, h, ih]

/-- A truthy nullable string is a non-empty some. -/
theorem jsTruthyStr_eq_true (o : Option String) (h : jsTruthyStr o = true) :
    ∃ r, o = some r ∧ r ≠ "" := by
  cases o with
  | none => simp [jsTruthyStr] at h
  | some s =>
    refine ⟨s, rfl, ?_⟩
    simpa [jsTruthyStr] using h

/-- stripStars leaves no asterisk in its output. -/
theorem stripStars_no_star (s : String) : '*' ∉ (stripStars s).data := by
  intro h
  have : ('*' != '*') = true := (List.mem_filter.mp h).2
  simp at this

/-- Every string tryModel returns has had its asterisks stripped. -/
theorem tryModel_no_star (groqCall : String → Option String) (m r : String)
    (h : tryModel groqCall m = some r) : '*' ∉ r.data := by
  unfold tryModel at h
  split at h
  next => simp at h
  next gm hm =>
    split at h
    next => simp at h
    next c hc =>
      split at h
      next => simp at h
      next hne =>
        have : r = stripStars c := (Option.some.inj h).symm
        rw [this]
        exact stripStars_no_star c

/-- C1: when the primary model attempt does not succeed, the dispatcher
walks the declared fallback chain in order, stops at the first model with
a truthy response (captured by List.find? over the declared chain), and
reports that model as the model actually used; on exhaustion the reported
model is the string none; fallbackUsed is true exactly when the primary
attempt did not succeed, and a successful primary attempt is reported
under the requested model id. -/
theorem handleEmailQuery_fallback_order (groqCall : String → Option String)
    (modelId : String) :
    fallbackChain = ["llama3-70b-8192", "llama-3.1-8b-instant", "gemma2-9b-it"]
    ∧ ((handleEmailQuery groqCall modelId).fallbackUsed = true
        ↔ jsTruthyStr (tryModel groqCall modelId) = false)
    ∧ (jsTruthyStr (tryModel groqCall modelId) = false →
        ∀ m, fallbackChain.find? (fun c => jsTruthyStr (tryModel groqCall c))
              = some m →
          (handleEmailQuery groqCall modelId).modelUsed = m
          ∧ (handleEmailQuery groqCall modelId).response
              = (tryModel groqCall m).getD "")
    ∧ (jsTruthyStr (tryModel groqCall modelId) = false →
        fallbackChain.find? (fun c => jsTruthyStr (tryModel groqCall c))
          = none →
        (handleEmailQuery groqCall modelId).modelUsed = "none")
    ∧ (jsTruthyStr (tryModel groqCall modelId) = true →
        (handleEmailQuery groqCall modelId).modelUsed = modelId) := by
  refine ⟨rfl, ?_, ?_, ?_, ?_⟩
  · unfold handleEmailQuery
    by_cases h : jsTruthyStr (tryModel groqCall modelId) = true
    · simp [h]
    · simp only [Bool.not_eq_true] at h
      simp only [h, if_false, Bool.false_eq_true]
      cases hf : runFallbacks groqCall fallbackChain with
      | none => simp
      | some p => cases p with | mk a b => simp
  · intro h m hm
    unfold handleEmailQuery
    simp only [h, if_false, Bool.false_eq_true]
    rw [runFallbacks_eq_find, hm]
    simp
  · intro h hm
    unfold handleEmailQuery
    simp only [h, if_false, Bool.false_eq_true]
    rw [runFallbacks_eq_find, hm]
    simp
  · intro h
    unfold handleEmailQuery
    simp [h]

/-- Oracle for the C1 witness: only the Groq model of the second fallback
answers. -/
def apiW : String → Option String := fun m =>
  if m = "llama-3.1-8b-instant" then some "ok*here" else none

/-- Witness for C1: with the primary failing and only the second fallback
answering, the dispatcher reports the second fallback as the model used
and its stripped text as the response. -/
theorem handleEmailQuery_fallback_order_witness :
    jsTruthyStr (tryModel apiW primaryModel) = false
    ∧ (handleEmailQuery apiW primaryModel).modelUsed = "llama-3.1-8b-instant"
    ∧ (handleEmailQuery apiW primaryModel).response = "okhere"
    ∧ (handleEmailQuery apiW primaryModel).fallbackUsed = true := by
  have h := handleEmailQuery_fallback_order apiW primaryModel
  have h1 : jsTruthyStr (tryModel apiW primaryModel) = false := by decide
  have hfind : fallbackChain.find? (fun c => jsTruthyStr (tryModel apiW c))
      = some "llama-3.1-8b-instant" := by decide
  have h2 := h.2.2.1 h1 _ hfind
  exact ⟨h1, h2.1, by rw [h2.2]; decide, h.2.1.mpr h1⟩

/-- C3: a valid request on which the primary attempt and every fallback
model fail is answered with HTTP status 200 carrying the user-safe
apology text as the response message, not a hard error status. -/
theorem process_exhaustion_returns_apology (groqCall : String → Option String)
    (body : ProcessBody)
    (hval : validateRequest body.content body.contextEmails = none)
    (hprimary :
      jsTruthyStr (tryModel groqCall (body.modelId.getD primaryModel)) = false)
    (hchain : ∀ m ∈ fallbackChain, jsTruthyStr (tryModel groqCall m) = false) :
    (processRoute groqCall body).status = 200
    ∧ (processRoute groqCall body).response = some apologyText := by
  have hfind : fallbackChain.find? (fun c => jsTruthyStr (tryModel groqCall c))
      = none := by
    rw [List.find?_eq_none]
    intro x hx
    simp [hchain x hx]
  have hq : handleEmailQuery groqCall (body.modelId.getD primaryModel)
      = { response := apologyText, modelUsed := "none", fallbackUsed := true } := by
    unfold handleEmailQuery
    simp only [hprimary, if_false, Bool.false_eq_true]
    rw [runFallbacks_eq_find, hfind]
    rfl
  unfold processRoute
  rw [hval]
  simp [hq]

/-- Oracle for the C3 witness: every model call fails. -/
def groqAllFail : String → Option String := fun _ => none

/-- A concrete valid request body for the C3 witness. -/
def bodyW : ProcessBody :=
  { content := some "hi", modelId := none, contextEmails := some [()] }

/-- Witness for C3 at a concrete valid request with every model failing. -/
theorem process_exhaustion_returns_apology_witness :
    (processRoute groqAllFail bodyW).status = 200
    ∧ (processRoute groqAllFail bodyW).response = some apologyText := by
  apply process_exhaustion_returns_apology
  · decide
  · decide
  · decide

/-- C10: the response text delivered by the dispatcher never contains an
asterisk: every successful model response has every asterisk character
stripped before being returned, and the apology text is asterisk-free. -/
theorem dispatcher_strips_asterisks (groqCall : String → Option String)
    (modelId : String) :
    '*' ∉ (handleEmailQuery groqCall modelId).response.data
    ∧ (∀ r, tryModel groqCall modelId = some r → '*' ∉ r.data) := by
  constructor
  · unfold handleEmailQuery
    by_cases h : jsTruthyStr (tryModel groqCall modelId) = true
    · obtain ⟨r, hr, -⟩ := jsTruthyStr_eq_true _ h
      have htr : jsTruthyStr (some r) = true := by rw [← hr]; exact h
      simp only [hr, htr, if_true, Option.getD_some]
      exact tryModel_no_star groqCall modelId r hr
    · simp only [Bool.not_eq_true] at h
      simp only [h, if_false, Bool.false_eq_true]
      cases hf : runFallbacks groqCall fallbackChain with
      | none => simpa using (by decide : '*' ∉ apologyText.data)
      | some p =>
        cases p with
        | mk m r =>
          show '*' ∉ r.data
          rw [runFallbacks_eq_find] at hf
          cases hfind : fallbackChain.find?
              (fun c => jsTruthyStr (tryModel groqCall c)) with
          | none => rw [hfind] at hf; exact absurd hf (by simp)
          | some c =>
            rw [hfind] at hf
            simp only [Option.map_some'] at hf
            have hpair := Option.some.inj hf
            have hr2 : (tryModel groqCall c).getD "" = r :=
              congrArg Prod.snd hpair
            have hc := List.find?_some hfind
            obtain ⟨r2, hr3, -⟩ := jsTruthyStr_eq_true _ hc
            rw [← hr2, hr3, Option.getD_some]
            exact tryModel_no_star groqCall c r2 hr3
  · intro r hr
    exact tryModel_no_star groqCall modelId r hr

/-- Oracle for the C10 witness: the model answers with text containing an
asterisk. -/
def apiStar : String → Option String := fun _ => some "a*b"

/-- Witness for C10: a response text computed through the dispatcher from
a model output containing an asterisk is asterisk-free. -/
theorem dispatcher_strips_asterisks_witness :
    '*' ∉ (handleEmailQuery apiStar primaryModel).response.data
    ∧ '*' ∉ ("ab" : String).data := by
  have h := dispatcher_strips_asterisks apiStar primaryModel
  have ht : tryModel apiStar primaryModel = some "ab" := by decide
  exact ⟨h.1, h.2 "ab" ht⟩

/-! ## Reply and forward subjects (backend routes emails.ts lines 558-565
and 705-707) -/

/-- The regex replace of a single leading case-insensitive Re-colon-space
prefix (emails.ts line 561): if the character list starts with that
four-character prefix it is removed once, otherwise the list is
unchanged. -/
def stripReData : List Char → List Char
  | c1 :: c2 :: c3 :: c4 :: rest =>
    if (c1 = 'R' ∨ c1 = 'r') ∧ (c2 = 'e' ∨ c2 = 'E') ∧ c3 = ':' ∧ c4 = ' '
    then rest
    else c1 :: c2 :: c3 :: c4 :: rest
  | l => l

/-- The reply subject (emails.ts line 561): prefix Re-colon-space after
stripping one existing leading occurrence case-insensitively. -/
def replySubject (subject : String) : String :=
  "Re: " ++ String.mk (stripReData subject.data)

/-- The regex replace of a single leading case-insensitive
Fwd-colon-space prefix (emails.ts line 706). -/
def stripFwdData : List Char → List Char
  | c1 :: c2 :: c3 :: c4 :: c5 :: rest =>
    if (c1 = 'F' ∨ c1 = 'f') ∧ (c2 = 'w' ∨ c2 = 'W') ∧ (c3 = 'd' ∨ c3 = 'D')
        ∧ c4 = ':' ∧ c5 = ' '
    then rest
    else c1 :: c2 :: c3 :: c4 :: c5 :: rest
  | l => l

/-- The forward subject (emails.ts line 706). -/
def forwardSubject (subject : String) : String :=
  "Fwd: " ++ String.mk (stripFwdData subject.data)

/-- Appending strings concatenates their character data. -/
theorem string_data_append (a b : String) :
    (a ++ b).data = a.data ++ b.data := rfl

/-- C7: a reply subject carries exactly one leading Re prefix: a subject
already starting with the prefix keeps a single copy, the quoted Launch
plan scenario holds, replying twice adds nothing further, and the same
single-prefix rule holds for the Fwd prefix on forward. -/
theorem reply_forward_subject_single_prefix :
    (∀ s : String, replySubject ("Re: " ++ s) = "Re: " ++ s)
    ∧ replySubject "Re: Launch plan" = "Re: Launch plan"
    ∧ (∀ s : String, forwardSubject ("Fwd: " ++ s) = "Fwd: " ++ s)
    ∧ (∀ s : String, replySubject (replySubject s) = replySubject s)
    ∧ (∀ s : String, forwardSubject (forwardSubject s) = forwardSubject s) := by
  have hre : ∀ s : String, replySubject ("Re: " ++ s) = "Re: " ++ s := by
    intro s
    show "Re: " ++ String.mk (stripReData (("Re: " ++ s).data)) = "Re: " ++ s
    rw [string_data_append]
    show "Re: " ++ String.mk (stripReData ('R' :: 'e' :: ':' :: ' ' :: s.data))
        = "Re: " ++ s
    rw [show stripReData ('R' :: 'e' :: ':' :: ' ' :: s.data) = s.data from rfl]
  have hfwd : ∀ s : String, forwardSubject ("Fwd: " ++ s) = "Fwd: " ++ s := by
    intro s
    show "Fwd: " ++ String.mk (stripFwdData (("Fwd: " ++ s).data))
        = "Fwd: " ++ s
    rw [string_data_append]
    show "Fwd: "
        ++ String.mk (stripFwdData ('F' :: 'w' :: 'd' :: ':' :: ' ' :: s.data))
        = "Fwd: " ++ s
    rw [show stripFwdData ('F' :: 'w' :: 'd' :: ':' :: ' ' :: s.data) = s.data
        from rfl]
  refine ⟨hre, by decide, hfwd, ?_, ?_⟩
  · intro s
    exact hre (String.mk (stripReData s.data))
  · intro s
    exact hfwd (String.mk (stripFwdData s.data))

/-! ## Header extraction (backend routes emails.ts lines 112-118 and
545-552) -/

/-- A Gmail message header entry as the route sees it; the value may be
absent. -/
structure GHeader where
  name : String
  value : Option String
deriving Repr, DecidableEq

/-- Header extraction as written in the routes: find the first header
whose name is strictly equal to the requested name and take its value,
defaulting to the empty string when the header or its value is absent. -/
def getHeaderValue (headers : List GHeader) (n : String) : String :=
  ((headers.find? (fun h => h.name == n)).bind (fun h => h.value)).getD ""

/-- Case-sensitive first-match lookup written out recursively, following
the amended wording of the claim. -/
def specHeaderCS : List GHeader → String → String
  | [], _ => ""
  | h :: rest, n => if h.name = n then h.value.getD "" else specHeaderCS rest n

/-- Case-insensitive lookup as the claim states it: names are compared
after lowering the case of every character. -/
def specHeaderCI (headers : List GHeader) (n : String) : String :=
  ((headers.find?
      (fun h => h.name.data.map Char.toLower == n.data.map Char.toLower)).bind
    (fun h => h.value)).getD ""

/-- Counterexample to C5 as stated: header-name matching in the routes is
case-sensitive.  On a message whose header list spells the subject header
in upper case, the extraction yields the empty string while the
case-insensitive lookup the claim describes yields the stored value. -/
theorem header_ci_counterexample :
    getHeaderValue [{ name := "SUBJECT", value := some "Hello" }] "Subject"
        = ""
    ∧ specHeaderCI [{ name := "SUBJECT", value := some "Hello" }] "Subject"
        = "Hello"
    ∧ ("" : String) ≠ "Hello" := by
  refine ⟨by decide, by decide, by decide⟩

/-- C5 amended: header extraction matches header names by exact
case-sensitive comparison, taking the first match, and every absent
header or absent value normalizes to the empty string. -/
theorem header_extraction_case_sensitive (headers : List GHeader)
    (n : String) :
    getHeaderValue headers n = specHeaderCS headers n
    ∧ ((∀ h ∈ headers, h.name ≠ n) → getHeaderValue headers n = "") := by
  constructor
  · induction headers with
    | nil => rfl
    | cons h rest ih =>
      by_cases hn : h.name = n
      · simp [getHeaderValue, specHeaderCS, List.find?_cons, hn]
      · have hb : (h.name == n) = false := by
          simpa using hn
        simp only [getHeaderValue, specHeaderCS, List.find?_cons, hb, if_neg hn]
        exact ih
  · intro habs
    have : headers.find? (fun h => h.name == n) = none := by
      rw [List.find?_eq_none]
      intro x hx
      simpa using habs x hx
    simp [getHeaderValue, this]

/-- Witness for the amended C5 at a concrete header list: a request for a
header that is not present yields the empty string, and the extraction
agrees with the recursive case-sensitive lookup. -/
theorem header_extraction_case_sensitive_witness :
    getHeaderValue [{ name := "From", value := some "a@b" }] "Subject" = ""
    ∧ getHeaderValue [{ name := "From", value := some "a@b" }] "From"
        = specHeaderCS [{ name := "From", value := some "a@b" }] "From" := by
  have h := header_extraction_case_sensitive
    [{ name := "From", value := some "a@b" }] "Subject"
  have h2 := header_extraction_case_sensitive
    [{ name := "From", value := some "a@b" }] "From"
  exact ⟨h.2 (by decide), h2.1⟩

/-! ## Outlook token refresh and retry (backend routes emails.ts
lines 1343-1400, 1434-1437; services tokenService.ts lines 39-68) -/

/-- Outcome of one Graph API call: a value, or an HTTP error carrying its
status code. -/
inductive GraphCallResult (α : Type) where
  | ok (v : α)
  | httpErr (statusCode : Nat)
deriving Repr, DecidableEq

/-- Observable trace of the Outlook list route: the HTTP status answered
to the caller, how many times refreshTokenByProvider ran, how many Graph
list calls were issued, and the access token the rebuilt client used for
the retried call. -/
structure OutlookFetchTrace where
  status : Nat
  refreshCalls : Nat
  attempts : Nat
  retryToken : Option String
deriving Repr, DecidableEq

/-- The Outlook branch of GET /emails (emails.ts lines 1343-1400) with
its outer catch (lines 1434-1437).  The first Graph call, the
refreshAccessToken operation (one refreshTokenByProvider invocation;
none means it threw) and the retried Graph call are oracles.  A 401 on
the first call triggers exactly one refresh, a client rebuilt with the
returned token, and exactly one retry; any error escaping this logic is
caught by the outer handler, which answers status 500 with the generic
failed-to-fetch body. -/
def outlookListEmails (firstCall : GraphCallResult Unit)
    (refresh : Option String) (retryCall : GraphCallResult Unit) :
    OutlookFetchTrace :=
  match firstCall with
  | GraphCallResult.ok _ =>
    { status := 200, refreshCalls := 0, attempts := 1, retryToken := none }
  | GraphCallResult.httpErr code =>
    if code = 401 then
      match refresh with
      | none =>
        { status := 500, refreshCalls := 1, attempts := 1, retryToken := none }
      | some tok =>
        match retryCall with
        | GraphCallResult.ok _ =>
          { status := 200, refreshCalls := 1, attempts := 2,
            retryToken := some tok }
        | GraphCallResult.httpErr _ =>
          { status := 500, refreshCalls := 1, attempts := 2,
            retryToken := some tok }
    else
      { status := 500, refreshCalls := 0, attempts := 1, retryToken := none }

/-- Counterexample to C2 as stated: when the initial call and the retried
call both fail with 401, the route performs exactly one refresh and one
retry but surfaces the failure as the generic 500 response of the outer
catch, not as a 401 AuthenticationExpired. -/
theorem outlook_second_failure_counterexample :
    (outlookListEmails (GraphCallResult.httpErr 401) (some "tok2")
        (GraphCallResult.httpErr 401)).status = 500
    ∧ (outlookListEmails (GraphCallResult.httpErr 401) (some "tok2")
        (GraphCallResult.httpErr 401)).refreshCalls = 1
    ∧ (outlookListEmails (GraphCallResult.httpErr 401) (some "tok2")
        (GraphCallResult.httpErr 401)).attempts = 2
    ∧ ¬ (outlookListEmails (GraphCallResult.httpErr 401) (some "tok2")
        (GraphCallResult.httpErr 401)).status = 401 := by
  refine ⟨rfl, rfl, rfl, by decide⟩

/-- C2 amended: a provider call failing with 401 triggers exactly one
token refresh, a client rebuilt with the refreshed token, and exactly one
retry; a successful retry answers 200, and a second failure is answered
by the outer catch as the generic 500 error without any further refresh
or retry. -/
theorem outlook_one_refresh_one_retry (refreshTok : String)
    (retryCall : GraphCallResult Unit) :
    (outlookListEmails (GraphCallResult.httpErr 401) (some refreshTok)
        retryCall).refreshCalls = 1
    ∧ (outlookListEmails (GraphCallResult.httpErr 401) (some refreshTok)
        retryCall).attempts = 2
    ∧ (outlookListEmails (GraphCallResult.httpErr 401) (some refreshTok)
        retryCall).retryToken = some refreshTok
    ∧ (∀ v, retryCall = GraphCallResult.ok v →
        (outlookListEmails (GraphCallResult.httpErr 401) (some refreshTok)
          retryCall).status = 200)
    ∧ (∀ c, retryCall = GraphCallResult.httpErr c →
        (outlookListEmails (GraphCallResult.httpErr 401) (some refreshTok)
          retryCall).status = 500) := by
  cases retryCall with
  | ok v =>
    refine ⟨rfl, rfl, rfl, fun _ _ => rfl, fun c hc => ?_⟩
    exact absurd hc (by simp)
  | httpErr c =>
    refine ⟨rfl, rfl, rfl, fun v hv => ?_, fun _ _ => rfl⟩
    exact absurd hv (by simp)

/-- Witness for the amended C2 at a concrete successful retry. -/
theorem outlook_one_refresh_one_retry_witness :
    (outlookListEmails (GraphCallResult.httpErr 401) (some "newTok")
        (GraphCallResult.ok ())).status = 200
    ∧ (outlookListEmails (GraphCallResult.httpErr 401) (some "newTok")
        (GraphCallResult.ok ())).refreshCalls = 1
    ∧ (outlookListEmails (GraphCallResult.httpErr 401) (some "newTok")
        (GraphCallResult.ok ())).retryToken = some "newTok" := by
  have h := outlook_one_refresh_one_retry "newTok" (GraphCallResult.ok ())
  exact ⟨h.2.2.2.1 () rfl, h.1, h.2.2.1⟩

/-! ## Front-end email list projection (unnamed part_008 lines 195-266) -/

/-- The fields of a listed email the front-end security filter reads. -/
structure EmailStub where
  subject : String
  fromAddr : String
  content : Option String
deriving Repr, DecidableEq

/-- The body of the backend GET /emails response consumed by getEmails. -/
structure BackendEmailsData where
  messages : List EmailStub
  nextPageToken : Option String
  resultSizeEstimate : Nat
deriving Repr, DecidableEq

/-- The GetEmailsParams interface of the front-end library. -/
structure EmailsQueryParams where
  query : Option String
  filter : Option String
  page : Option Nat
  pageSize : Option Nat
  pageToken : Option String
  timeRange : Option String
deriving Repr, DecidableEq

/-- The EmailsResponse record getEmails returns. -/
structure EmailsResponseM where
  messages : List EmailStub
  nextPageToken : Option String
  resultSizeEstimate : Nat
  totalPages : Nat
  currentPage : Nat
deriving Repr, DecidableEq

/-- JavaScript String.prototype.includes as a substring test: splitting
on the pattern produces more than one piece exactly when the pattern
occurs. -/
def containsSubstr (s pat : String) : Bool := (s.splitOn pat).length != 1

/-- Lower-case a string character by character, as toLowerCase does on
the ASCII strings involved here. -/
def lowerStr (s : String) : String := String.mk (s.data.map Char.toLower)

/-- The security-query test of getEmails (part_008 lines 202-205 and
241-244). -/
def isSecurityQuery (q : Option String) : Bool :=
  match q with
  | none => false
  | some s =>
    containsSubstr (lowerStr s) "security" || containsSubstr (lowerStr s) "alert"

/-- The client-side security filter predicate (part_008 lines 245-252). -/
def isSecurityEmail (e : EmailStub) : Bool :=
  containsSubstr (lowerStr e.subject) "security"
  || containsSubstr (lowerStr e.subject) "alert"
  || containsSubstr (lowerStr e.fromAddr) "security"
  || (match e.content with
      | some c => containsSubstr (lowerStr c) "security alert"
      | none => false)

/-- getEmails of the front-end library (part_008 lines 195-266).  The
axios call is abstracted as the backend data oracle; the outgoing request
always asks for maxResults 20, and the requested pageSize parameter is
never read.  totalPages is the ceiling of resultSizeEstimate over 20, and
currentPage is the page parameter with JavaScript or-defaulting to 1. -/
def getEmailsFrontend (data : BackendEmailsData)
    (params : EmailsQueryParams) : EmailsResponseM :=
  let filtered :=
    if isSecurityQuery params.query then data.messages.filter isSecurityEmail
    else data.messages
  { messages := filtered,
    nextPageToken := data.nextPageToken,
    resultSizeEstimate := data.resultSizeEstimate,
    totalPages := (data.resultSizeEstimate + 20 - 1) / 20,
    currentPage :=
      match params.page with
      | some p => if p = 0 then 1 else p
      | none => 1 }

/-- A backend page for the scenario: 20 returned messages and a result
size estimate of 45. -/
def backendData45 : BackendEmailsData :=
  { messages := List.replicate 20 { subject := "m", fromAddr := "x@y", content := none },
    nextPageToken := some "tok", resultSizeEstimate := 45 }

/-- The scenario parameters: unread filter, no free-text query, first
page. -/
def paramsUnread : EmailsQueryParams :=
  { query := none, filter := some "unread", page := none,
    pageSize := some 20, pageToken := none, timeRange := none }

/-- The scenario parameters with a requested page size of 50. -/
def paramsPageSize50 : EmailsQueryParams :=
  { query := none, filter := some "unread", page := none,
    pageSize := some 50, pageToken := none, timeRange := none }

/-- Counterexample to C9 as stated: the requested pageSize parameter is
ignored.  With a result size estimate of 45 and a requested page size of
50 the claim predicts ceiling of 45 over 50, that is 1 page, but the code
answers 3 pages because the divisor is fixed at 20. -/
theorem totalPages_ignores_requested_pageSize :
    (getEmailsFrontend backendData45 paramsPageSize50).totalPages = 3
    ∧ paramsPageSize50.pageSize = some 50
    ∧ (45 + 50 - 1) / 50 = 1
    ∧ ¬ (getEmailsFrontend backendData45 paramsPageSize50).totalPages
        = (45 + 50 - 1) / 50 := by
  refine ⟨rfl, rfl, rfl, by decide⟩

/-- C9 amended: the page size is fixed at 20, so totalPages is the
ceiling of resultSizeEstimate over 20 (characterized arithmetically), and
the quoted scenario holds: an unread listing over an estimate of 45
yields 20 items on page 1 with totalPages 3 and currentPage 1. -/
theorem totalPages_is_ceiling_over_20 (data : BackendEmailsData)
    (params : EmailsQueryParams) :
    (data.resultSizeEstimate = 0 →
      (getEmailsFrontend data params).totalPages = 0)
    ∧ (0 < data.resultSizeEstimate →
        20 * ((getEmailsFrontend data params).totalPages - 1)
            < data.resultSizeEstimate
        ∧ data.resultSizeEstimate
            ≤ 20 * (getEmailsFrontend data params).totalPages)
    ∧ (getEmailsFrontend backendData45 paramsUnread).messages.length = 20
    ∧ (getEmailsFrontend backendData45 paramsUnread).totalPages = 3
    ∧ (getEmailsFrontend backendData45 paramsUnread).currentPage = 1 := by
  refine ⟨?_, ?_, by decide, rfl, rfl⟩
  · intro h
    simp [getEmailsFrontend, h]
  · intro h
    have he : (getEmailsFrontend data params).totalPages
        = (data.resultSizeEstimate + 20 - 1) / 20 := rfl
    rw [he]
    omega

/-- Witness for the amended C9 at the concrete scenario data. -/
theorem totalPages_is_ceiling_over_20_witness :
    20 * ((getEmailsFrontend backendData45 paramsUnread).totalPages - 1) < 45
    ∧ 45 ≤ 20 * (getEmailsFrontend backendData45 paramsUnread).totalPages := by
  have h := totalPages_is_ceiling_over_20 backendData45 paramsUnread
  exact h.2.1 (by decide)

/-! ## Outgoing MIME construction (backend routes emails.ts
lines 389-516) -/

/-- The standard base64 alphabet. -/
def b64Char (n : Nat) : Char :=
  if n < 26 then Char.ofNat ('A'.toNat + n)
  else if n < 52 then Char.ofNat ('a'.toNat + (n - 26))
  else if n < 62 then Char.ofNat ('0'.toNat + (n - 52))
  else if n = 62 then '+'
  else '/'

/-- Base64 encoding of a byte list, with padding, as Buffer.toString with
the base64 encoding produces. -/
def b64EncodeBytes : List Nat → List Char
  | b1 :: b2 :: b3 :: rest =>
    let n := (b1 % 256) * 65536 + (b2 % 256) * 256 + b3 % 256
    b64Char (n / 262144 % 64) :: b64Char (n / 4096 % 64)
      :: b64Char (n / 64 % 64) :: b64Char (n % 64) :: b64EncodeBytes rest
  | [b1, b2] =>
    let n := (b1 % 256) * 1024 + (b2 % 256) * 4
    [b64Char (n / 4096 % 64), b64Char (n / 64 % 64), b64Char (n % 64), '=']
  | [b1] =>
    let n := (b1 % 256) * 16
    [b64Char (n / 64 % 64), b64Char (n % 64), '=', '=']
  | [] => []

/-- Base64 encoding as a string. -/
def b64Encode (bytes : List Nat) : String := String.mk (b64EncodeBytes bytes)

/-- The 76-character splitting loop (emails.ts lines 466-469) over
character data, driven by a fuel counter so the recursion is structural.
Each step consumes at least one character, so any fuel of at least the
length of the list computes the full chunking. -/
def chunkLinesFuel : Nat → List Char → List (List Char)
  | 0, _ => []
  | _, [] => []
  | fuel + 1, c :: rest =>
    (c :: rest).take 76 :: chunkLinesFuel fuel ((c :: rest).drop 76)

/-- The 76-character splitting loop over character data. -/
def chunkLines (l : List Char) : List (List Char) := chunkLinesFuel l.length l

/-- The 76-character splitting loop on a string: the base64 content is
pushed as successive substrings of 76 characters. -/
def chunk76 (s : String) : List String := (chunkLines s.data).map String.mk

/-- Every chunk the splitting loop produces has at most 76 characters. -/
theorem chunkLinesFuel_length_le (fuel : Nat) :
    ∀ (l : List Char), ∀ c ∈ chunkLinesFuel fuel l, c.length ≤ 76 := by
  induction fuel with
  | zero => intro l c hc; simp [chunkLinesFuel] at hc
  | succ n ih =>
    intro l c hc
    cases l with
    | nil => simp [chunkLinesFuel] at hc
    | cons a rest =>
      rw [chunkLinesFuel] at hc
      rcases List.mem_cons.mp hc with h1 | h2
      · subst h1
        simpa using List.length_take_le 76 (a :: rest)
      · exact ih _ c h2

/-- Every chunk of the splitting loop has at most 76 characters. -/
theorem chunkLines_length_le (l : List Char) :
    ∀ c ∈ chunkLines l, c.length ≤ 76 :=
  chunkLinesFuel_length_le l.length l

/-- The suffix after the first greater-than character, when one exists. -/
def findGtSplit : List Char → Option (List Char)
  | [] => none
  | c :: rest => if c = '>' then some rest else findGtSplit rest

/-- The suffix found is strictly shorter than the scanned list. -/
theorem findGtSplit_length :
    ∀ (l after : List Char), findGtSplit l = some after →
      after.length < l.length := by
  intro l
  induction l with
  | nil => intro after h; simp [findGtSplit] at h
  | cons c rest ih =>
    intro after h
    rw [findGtSplit] at h
    split at h
    · cases h
      simp
    · have := ih after h
      simp only [List.length_cons]
      omega

/-- The regex replace deleting every tag of the form
less-than, non-greater-than characters, greater-than (emails.ts
line 434): at a less-than character with a matching greater-than further
on, the whole bracketed run is dropped and scanning resumes after it; a
less-than with no closing greater-than keeps the remainder verbatim,
since the regex cannot match anywhere in it. -/
def stripTags (l : List Char) : List Char :=
  match l with
  | [] => []
  | c :: rest =>
    if c = '<' then
      match hf : findGtSplit rest with
      | some after => stripTags after
      | none => c :: rest
    else c :: stripTags rest
termination_by l.length
decreasing_by
  · have := findGtSplit_length rest after hf
    simp only [List.length_cons]
    omega
  · simp

/-- The derived plain-text alternative: the HTML message with markup
stripped. -/
def stripHtmlTags (s : String) : String := String.mk (stripTags s.data)

/-- An uploaded attachment file as multer stores it: original name,
reported MIME type, temp-file path, and the byte content read back from
that path. -/
structure UploadFile where
  originalname : String
  mimetype : String
  path : String
  content : List Nat
deriving Repr, DecidableEq

/-- Input of the send route message construction (emails.ts
lines 398-413): form fields, uploaded files, and the timestamp-derived
boundary string. -/
structure SendInput where
  userEmail : String
  toAddr : String
  cc : Option String
  bcc : Option String
  subject : String
  message : String
  isHtml : Bool
  files : List UploadFile
  boundary : String

/-- The body lines of the multipart branch (emails.ts lines 423-448): an
alternative container with a stripped plain part and the HTML part when
isHtml is set, a single plain part otherwise. -/
def altBody (message : String) (isHtml : Bool) : List String :=
  if isHtml then
    ["Content-Type: multipart/alternative; boundary=alt_boundary", "",
     "--alt_boundary",
     "Content-Type: text/plain; charset=UTF-8",
     "Content-Transfer-Encoding: 7bit", "",
     stripHtmlTags message, "",
     "--alt_boundary",
     "Content-Type: text/html; charset=UTF-8",
     "Content-Transfer-Encoding: 7bit", "",
     message, "",
     "--alt_boundary--"]
  else
    ["Content-Type: text/plain; charset=UTF-8",
     "Content-Transfer-Encoding: 7bit", "", message]

/-- The lines one attachment contributes (emails.ts lines 451-471):
boundary marker, headers, blank separator, the base64 content split into
76-character lines, and a trailing blank. -/
def attachmentLines (f : UploadFile) (boundary : String) : List String :=
  ["--" ++ boundary,
   "Content-Type: "
     ++ (if f.mimetype = "" then "application/octet-stream" else f.mimetype),
   "Content-Transfer-Encoding: base64",
   "Content-Disposition: attachment; filename=\"" ++ f.originalname ++ "\"",
   ""]
  ++ chunk76 (b64Encode f.content)
  ++ [""]

/-- The messageParts array of the send route (emails.ts lines 401-479),
in push order.  Each element is emitted as one line of the outgoing
message: the route joins them with CRLF (line 482). -/
def sendMessageParts (inp : SendInput) : List String :=
  let headerLines :=
    ["From: " ++ inp.userEmail, "To: " ++ inp.toAddr]
    ++ (match inp.cc with
        | some c => if c ≠ "" then ["Cc: " ++ c] else []
        | none => [])
    ++ (match inp.bcc with
        | some b => if b ≠ "" then ["Bcc: " ++ b] else []
        | none => [])
    ++ ["Subject: " ++ inp.subject, "MIME-Version: 1.0"]
  if 0 < inp.files.length ∨ inp.isHtml = true then
    headerLines
    ++ ["Content-Type: multipart/mixed; boundary=" ++ inp.boundary, "",
        "--" ++ inp.boundary]
    ++ altBody inp.message inp.isHtml
    ++ (inp.files.map (fun f => attachmentLines f inp.boundary)).flatten
    ++ ["--" ++ inp.boundary ++ "--"]
  else
    headerLines ++ ["Content-Type: text/plain; charset=UTF-8", "", inp.message]

/-- A 100-character message body with no line breaks. -/
def longBody : String := String.mk (List.replicate 100 'a')

/-- A concrete send request whose body is one 100-character line. -/
def sendInputCE : SendInput :=
  { userEmail := "me@example.com", toAddr := "you@example.com", cc := none,
    bcc := none, subject := "Hello", message := longBody, isHtml := false,
    files := [], boundary := "boundary_1a2b3c" }

/-- Counterexample to C6 as stated: only attachment base64 content is
wrapped at 76 characters.  A plain send whose body is a single
100-character line emits that body as one line of the message text
(one element of messageParts, which are joined with CRLF), and it
exceeds 76 characters. -/
theorem mime_line_over_76_counterexample :
    longBody ∈ sendMessageParts sendInputCE
    ∧ 76 < longBody.length
    ∧ '\x0d' ∉ longBody.data
    ∧ '\x0a' ∉ longBody.data := by
  refine ⟨by decide, by decide, by decide, by decide⟩

/-- C6 amended: every line contributed by attachment base64 content is in
the constructed message and has at most 76 characters; header and body
lines are not wrapped and may be longer. -/
theorem attachment_base64_wrapped (inp : SendInput) (f : UploadFile)
    (hf : f ∈ inp.files) (l : String)
    (hl : l ∈ chunk76 (b64Encode f.content)) :
    l ∈ sendMessageParts inp ∧ l.length ≤ 76 := by
  constructor
  · have hcond : 0 < inp.files.length ∨ inp.isHtml = true :=
      Or.inl (List.length_pos_of_mem hf)
    unfold sendMessageParts
    rw [if_pos hcond]
    have h1 : l ∈ attachmentLines f inp.boundary := by
      unfold attachmentLines
      simp only [List.mem_append]
      tauto
    have h2 : attachmentLines f inp.boundary
        ∈ inp.files.map (fun g => attachmentLines g inp.boundary) :=
      List.mem_map_of_mem _ hf
    have h3 : l ∈ (inp.files.map (fun g => attachmentLines g inp.boundary)).flatten :=
      List.mem_flatten.mpr ⟨_, h2, h1⟩
    simp only [List.mem_append]
    tauto
  · obtain ⟨c, hc, rfl⟩ := List.mem_map.mp hl
    have := chunkLines_length_le (b64Encode f.content).data c hc
    simpa [String.length] using this

/-- A concrete uploaded file for the witnesses: two bytes spelling Hi. -/
def fileW : UploadFile :=
  { originalname := "a.txt", mimetype := "text/plain",
    path := "/uploads/1-a.txt", content := [72, 105] }

/-- A concrete send request carrying one attachment. -/
def sendInputW : SendInput :=
  { userEmail := "me@example.com", toAddr := "you@example.com", cc := none,
    bcc := none, subject := "Hi", message := "hello", isHtml := false,
    files := [fileW], boundary := "boundary_1a2b3c" }

/-- Witness for the amended C6: the single base64 line of the concrete
attachment occurs in the constructed message and is within 76
characters. -/
theorem attachment_base64_wrapped_witness :
    ("SGk=" : String) ∈ sendMessageParts sendInputW
    ∧ ("SGk=" : String).length ≤ 76 :=
  attachment_base64_wrapped sendInputW fileW (by decide) "SGk=" (by decide)

/-! ## Temp-file cleanup on the send, reply and forward routes
(emails.ts lines 491-514, 646-670, 898-921) -/

/-- Outcome of the provider send call. -/
inductive SendOutcome where
  | ok (msgId threadId : String)
  | err
deriving Repr, DecidableEq

/-- What the route tail observably does: the HTTP status answered and the
temp-file paths unlinked. -/
structure SendRouteResult where
  status : Nat
  deleted : List String
deriving Repr, DecidableEq

/-- The tail of the send route (emails.ts lines 491-514): after a
successful provider send the uploaded temp files are unlinked and 200 is
answered; a thrown error lands in the catch block, which answers 500
without running any unlink.  The reply route (lines 646-670) and forward
route (lines 898-921) end with the identical pattern. -/
def sendRouteCleanup (files : List UploadFile) (outcome : SendOutcome) :
    SendRouteResult :=
  match outcome with
  | SendOutcome.ok _ _ =>
    { status := 200,
      deleted := if 0 < files.length then files.map (fun f => f.path) else [] }
  | SendOutcome.err => { status := 500, deleted := [] }

/-- C8 fails on the code: with one uploaded attachment and a provider
send that throws, the route answers 500 and deletes nothing, so the temp
file leaks; deletion happens only on the success path. -/
theorem temp_files_leak_on_error :
    (sendRouteCleanup [fileW] SendOutcome.err).status = 500
    ∧ (sendRouteCleanup [fileW] SendOutcome.err).deleted = []
    ∧ fileW.path ∉ (sendRouteCleanup [fileW] SendOutcome.err).deleted
    ∧ (sendRouteCleanup [fileW] (SendOutcome.ok "id" "th")).deleted
        = [fileW.path] := by
  refine ⟨rfl, rfl, by decide, rfl⟩

/-! ## Gmail message decoding (backend routes emails.ts lines 245-339,
processParts at lines 269-300) -/

/-- A base64 or base64url digit value; padding and other characters map
to none and are skipped, as Buffer.from with base64 does. -/
def b64Val (c : Char) : Option Nat :=
  if 'A' ≤ c ∧ c ≤ 'Z' then some (c.toNat - 'A'.toNat)
  else if 'a' ≤ c ∧ c ≤ 'z' then some (c.toNat - 'a'.toNat + 26)
  else if '0' ≤ c ∧ c ≤ '9' then some (c.toNat - '0'.toNat + 52)
  else if c = '+' ∨ c = '-' then some 62
  else if c = '/' ∨ c = '_' then some 63
  else none

/-- Bit-accumulating base64 decoder: each digit contributes six bits and
a byte is emitted whenever eight bits are available. -/
def b64DecodeAux : List Char → Nat → Nat → List Nat
  | [], _, _ => []
  | c :: cs, acc, nbits =>
    match b64Val c with
    | none => b64DecodeAux cs acc nbits
    | some v =>
      if 8 ≤ nbits + 6 then
        (acc * 64 + v) / 2 ^ (nbits - 2)
          :: b64DecodeAux cs ((acc * 64 + v) % 2 ^ (nbits - 2)) (nbits - 2)
      else b64DecodeAux cs (acc * 64 + v) (nbits + 6)

/-- The decode step Buffer.from with base64 followed by toString performs
on the ASCII message data handled here. -/
def b64DecodeString (s : String) : String :=
  String.mk ((b64DecodeAux s.data 0 0).map Char.ofNat)

/-- An attachment descriptor collected by the decoder (emails.ts
lines 277-284): attachment handle, file name, MIME type and size; no
content is embedded. -/
structure GAttachment where
  id : Option String
  filename : String
  mimeType : String
  size : Nat
deriving Repr, DecidableEq

/-- The mutable accumulators of the route (emails.ts lines 260-267):
htmlBody, plainBody and the attachment list. -/
structure DecodeAcc where
  html : String
  plain : String
  attachments : List GAttachment
deriving Repr, DecidableEq

mutual
/-- A Gmail message part: MIME type, filename (empty when absent),
attachment id, body size, body data (none when absent) and child
parts.  The child list is a mutually defined list type so that all the
recursions below are structural. -/
inductive GPart where
  | mk (mimeType : String) (filename : String) (attachmentId : Option String)
      (size : Nat) (bodyData : Option String) (children : GPartList)
/-- A list of Gmail message parts. -/
inductive GPartList where
  | nil
  | cons (p : GPart) (rest : GPartList)
end

mutual
/-- The body of the for-loop of processParts (emails.ts lines 273-299)
for one part: a part with a non-empty filename is recorded as an
attachment; otherwise a text/html part with truthy body data appends its
decoded data to the html accumulator; otherwise a text/plain part with
truthy body data appends to the plain accumulator; otherwise the child
parts are processed recursively (an absent child array behaves like an
empty one). -/
def processPart (decode : String → String) (p : GPart) (acc : DecodeAcc) :
    DecodeAcc :=
  match p with
  | GPart.mk mt fn aid sz bd ch =>
    if fn ≠ "" then
      { acc with
        attachments := acc.attachments
          ++ [{ id := aid, filename := fn, mimeType := mt, size := sz }] }
    else if mt = "text/html" ∧ jsTruthyStr bd = true then
      { acc with html := acc.html ++ decode (bd.getD "") }
    else if mt = "text/plain" ∧ jsTruthyStr bd = true then
      { acc with plain := acc.plain ++ decode (bd.getD "") }
    else
      processParts decode ch acc

/-- processParts (emails.ts lines 270-300): fold the loop body over the
parts in order. -/
def processParts (decode : String → String) (ps : GPartList) (acc : DecodeAcc) :
    DecodeAcc :=
  match ps with
  | GPartList.nil => acc
  | GPartList.cons p rest => processParts decode rest (processPart decode p acc)
end

/-- The GET /emails/:id decode step (emails.ts lines 302-312): when the
top-level payload carries truthy body data it becomes the sole body under
its stated MIME type (text/html or text/plain) and no attachments are
collected; otherwise processParts walks the part list starting from empty
accumulators. -/
def decodeGmailMessage (decode : String → String) (payload : GPart) :
    DecodeAcc :=
  match payload with
  | GPart.mk mt _ _ _ bd ch =>
    if jsTruthyStr bd = true then
      { html := if mt = "text/html" then decode (bd.getD "") else "",
        plain := if mt = "text/plain" then decode (bd.getD "") else "",
        attachments := [] }
    else
      processParts decode ch { html := "", plain := "", attachments := [] }

mutual
/-- The concatenation, in depth-first order, of the decoded data of every
text/html leaf the walk reaches in one part, following the wording of the
amended claim. -/
def specHtmlPart (decode : String → String) (p : GPart) : String :=
  match p with
  | GPart.mk mt fn _ _ bd ch =>
    if fn ≠ "" then ""
    else if mt = "text/html" ∧ jsTruthyStr bd = true then decode (bd.getD "")
    else if mt = "text/plain" ∧ jsTruthyStr bd = true then ""
    else specHtmlList decode ch

/-- Depth-first concatenation of every reached text/html leaf body over a
part list. -/
def specHtmlList (decode : String → String) (ps : GPartList) : String :=
  match ps with
  | GPartList.nil => ""
  | GPartList.cons p rest => specHtmlPart decode p ++ specHtmlList decode rest
end

mutual
/-- The concatenation, in depth-first order, of the decoded data of every
text/plain leaf the walk reaches in one part. -/
def specPlainPart (decode : String → String) (p : GPart) : String :=
  match p with
  | GPart.mk mt fn _ _ bd ch =>
    if fn ≠ "" then ""
    else if mt = "text/html" ∧ jsTruthyStr bd = true then ""
    else if mt = "text/plain" ∧ jsTruthyStr bd = true then decode (bd.getD "")
    else specPlainList decode ch

/-- Depth-first concatenation of every reached text/plain leaf body over
a part list. -/
def specPlainList (decode : String → String) (ps : GPartList) : String :=
  match ps with
  | GPartList.nil => ""
  | GPartList.cons p rest => specPlainPart decode p ++ specPlainList decode rest
end

mutual
/-- Every part with a non-empty filename the walk reaches in one part, as
an attachment descriptor, in depth-first order. -/
def specAttachPart (p : GPart) : List GAttachment :=
  match p with
  | GPart.mk mt fn aid sz bd ch =>
    if fn ≠ "" then
      [{ id := aid, filename := fn, mimeType := mt, size := sz }]
    else if mt = "text/html" ∧ jsTruthyStr bd = true then []
    else if mt = "text/plain" ∧ jsTruthyStr bd = true then []
    else specAttachList ch

/-- Depth-first attachment collection over a part list. -/
def specAttachList (ps : GPartList) : List GAttachment :=
  match ps with
  | GPartList.nil => []
  | GPartList.cons p rest => specAttachPart p ++ specAttachList rest
end

/-- Two strings with the same character data are equal. -/
theorem string_eq_of_data (a b : String) (h : a.data = b.data) : a = b := by
  cases a
  cases b
  exact congrArg String.mk h

/-- The empty string is a right identity of string append. -/
theorem string_append_empty (s : String) : s ++ "" = s := by
  apply string_eq_of_data
  rw [string_data_append]
  simp [show ("" : String).data = [] from rfl]

/-- The empty string is a left identity of string append. -/
theorem string_empty_append (s : String) : "" ++ s = s := by
  apply string_eq_of_data
  rw [string_data_append]
  simp [show ("" : String).data = [] from rfl]

/-- String append is associative. -/
theorem string_append_assoc (a b c : String) : a ++ b ++ c = a ++ (b ++ c) := by
  apply string_eq_of_data
  simp [string_data_append, List.append_assoc]

mutual
/-- Processing one part extends each accumulator by exactly the
depth-first collection over that part. -/
theorem processPart_eq (decode : String → String) (p : GPart)
    (acc : DecodeAcc) :
    processPart decode p acc
      = { html := acc.html ++ specHtmlPart decode p,
          plain := acc.plain ++ specPlainPart decode p,
          attachments := acc.attachments ++ specAttachPart p } := by
  cases p with
  | mk mt fn aid sz bd ch =>
    rw [processPart, specHtmlPart, specPlainPart, specAttachPart]
    split_ifs with h1 h2 h3
    · simp [string_append_empty]
    · simp [string_append_empty]
    · simp [string_append_empty]
    · exact processParts_eq decode ch acc

/-- Processing a part list extends each accumulator by exactly the
depth-first collection over the list. -/
theorem processParts_eq (decode : String → String) (ps : GPartList)
    (acc : DecodeAcc) :
    processParts decode ps acc
      = { html := acc.html ++ specHtmlList decode ps,
          plain := acc.plain ++ specPlainList decode ps,
          attachments := acc.attachments ++ specAttachList ps } := by
  cases ps with
  | nil =>
    rw [processParts, specHtmlList, specPlainList, specAttachList]
    simp [string_append_empty]
  | cons p rest =>
    rw [processParts, specHtmlList, specPlainList, specAttachList,
      processParts_eq decode rest (processPart decode p acc),
      processPart_eq decode p acc]
    simp [string_append_assoc, List.append_assoc]
end

/-- A leaf part carrying html data for the counterexample. -/
def partHtml (d : String) : GPart :=
  GPart.mk "text/html" "" none 0 (some d) GPartList.nil

/-- A payload whose part list has two text/html leaves, with base64 data
decoding to A and B. -/
def payloadTwoHtml : GPart :=
  GPart.mk "multipart/alternative" "" none 0 none
    (GPartList.cons (partHtml "QQ==")
      (GPartList.cons (partHtml "Qg==") GPartList.nil))

/-- Counterexample to C4 as stated: the decoder concatenates every
text/html leaf body rather than keeping the first one found.  On a
payload with two html leaves decoding to A and B, the html body is AB,
not the first leaf body A. -/
theorem decode_concatenates_not_first :
    (decodeGmailMessage b64DecodeString payloadTwoHtml).html = "AB"
    ∧ b64DecodeString "QQ==" = "A"
    ∧ ¬ (decodeGmailMessage b64DecodeString payloadTwoHtml).html = "A" := by
  refine ⟨by decide, by decide, by decide⟩

/-- C4 amended: the decoder walks the part tree depth-first,
concatenating the decoded data of every text/html leaf into the html body
and of every text/plain leaf into the plain body, collecting every part
with a non-empty filename as an attachment descriptor without content,
recursing transparently into nested parts; and a top-level payload with
truthy body data becomes the sole body when its stated MIME type is
text/html or text/plain, with no attachments collected. -/
theorem decode_accumulates_all_leaves (decode : String → String)
    (mt fn : String) (aid : Option String) (sz : Nat) (bd : Option String)
    (ch : GPartList) :
    (jsTruthyStr bd = false →
      decodeGmailMessage decode (GPart.mk mt fn aid sz bd ch)
        = { html := specHtmlList decode ch,
            plain := specPlainList decode ch,
            attachments := specAttachList ch })
    ∧ (jsTruthyStr bd = true →
      decodeGmailMessage decode (GPart.mk mt fn aid sz bd ch)
        = { html := if mt = "text/html" then decode (bd.getD "") else "",
            plain := if mt = "text/plain" then decode (bd.getD "") else "",
            attachments := [] }) := by
  constructor
  · intro h
    rw [decodeGmailMessage]
    rw [if_neg (by simp [h])]
    rw [processParts_eq]
    simp [string_empty_append]
  · intro h
    rw [decodeGmailMessage]
    rw [if_pos h]

/-- A payload for the amended C4 witness: an html leaf, a plain leaf and
an attachment part inside a nested container. -/
def payloadMixed : GPart :=
  GPart.mk "multipart/mixed" "" none 0 none
    (GPartList.cons
      (GPart.mk "multipart/alternative" "" none 0 none
        (GPartList.cons (GPart.mk "text/plain" "" none 0 (some "QQ==") GPartList.nil)
          (GPartList.cons (partHtml "Qg==") GPartList.nil)))
      (GPartList.cons
        (GPart.mk "application/pdf" "doc.pdf" (some "att1") 345 none GPartList.nil)
        GPartList.nil))

/-- Witness for the amended C4 at the mixed payload: the bodies are the
depth-first leaf concatenations and the nested attachment is collected. -/
theorem decode_accumulates_all_leaves_witness :
    decodeGmailMessage b64DecodeString payloadMixed
      = { html := "B", plain := "A",
          attachments :=
            [{ id := some "att1", filename := "doc.pdf",
               mimeType := "application/pdf", size := 345 }] } := by
  have h := (decode_accumulates_all_leaves b64DecodeString "multipart/mixed"
    "" none 0 none
    (GPartList.cons
      (GPart.mk "multipart/alternative" "" none 0 none
        (GPartList.cons (GPart.mk "text/plain" "" none 0 (some "QQ==") GPartList.nil)
          (GPartList.cons (partHtml "Qg==") GPartList.nil)))
      (GPartList.cons
        (GPart.mk "application/pdf" "doc.pdf" (some "att1") 345 none GPartList.nil)
        GPartList.nil))).1 (by decide)
  rw [show payloadMixed = GPart.mk "multipart/mixed" "" none 0 none
    (GPartList.cons
      (GPart.mk "multipart/alternative" "" none 0 none
        (GPartList.cons (GPart.mk "text/plain" "" none 0 (some "QQ==") GPartList.nil)
          (GPartList.cons (partHtml "Qg==") GPartList.nil)))
      (GPartList.cons
        (GPart.mk "application/pdf" "doc.pdf" (some "att1") 345 none GPartList.nil)
        GPartList.nil)) from rfl, h]
  refine congrArg₂ (fun a b => DecodeAcc.mk a b _) (by decide) (by decide)

end Mailbox
